import Mathlib

/-!
Shallow embedding of the yobr package model and build-stage inference engine
(`yobr/br.py`): package records, the graph builder turning a raw Buildroot
`show-info` report into linked records, the stamp-file stage inference of
`PkgBuild`, and the caching `PkgBuildMonitor`.

Python dictionaries are modelled as association lists (`List (String × _)`)
with first-match lookup; dictionary insertion overwrites in place, preserving
key order, exactly as CPython dictionaries do.  Python exceptions are modelled
with `Except` over an explicit error type carrying the exception class and
message.  The filesystem is a value of type `Fs` giving, for every path, the
result of a `stat` probe, a directory check, and a directory listing;
`os.path.exists` returns `false` both for a missing path and for a probe that
fails with an `OSError` (CPython swallows the error), while `os.listdir`
propagates its error.
-/

namespace Yobr

/-- A value stored in one field of a raw `show-info` report entry.  List
values are used by the source only as dictionary-lookup keys (dependency
names), so list elements are modelled as strings; a non-string element could
never equal a package name and is dropped either way. -/
inductive PyVal where
  | str : String → PyVal
  | bool : Bool → PyVal
  | list : List String → PyVal
deriving DecidableEq

/-- The Python runtime type of a field value, as tested by
`type(entry) is pytype` in `_get_br_pkg_info_entry`. -/
inductive PyType where
  | str
  | bool
  | list
deriving DecidableEq

def pyTypeOf : PyVal → PyType
  | .str _ => .str
  | .bool _ => .bool
  | .list _ => .list

/-- `entry.__class__.__name__`, used in the wrong-type error message. -/
def pyTypeName : PyType → String
  | .str => "str"
  | .bool => "bool"
  | .list => "list"

/-- A Python exception: its class and its message. -/
inductive PyErr where
  | valueError : String → PyErr
  | typeError : String → PyErr
  | keyError : String → PyErr
  | osError : String → PyErr
deriving DecidableEq

/-- The message of an exception (`str(exc)`). -/
def PyErr.msg : PyErr → String
  | .valueError m => m
  | .typeError m => m
  | .keyError m => m
  | .osError m => m

/-- One raw report entry: a Python dict from field name to value. -/
abbrev Entry := List (String × PyVal)

/-- A whole raw report: a Python dict from package name to entry. -/
abbrev Entries := List (String × Entry)

/-- The fields shared by every package information object (`PkgInfo.__init__`).
Dependencies are kept as package names: the source stores a set of `PkgInfo`
objects whose equality and hash are the name, so the name list carries the
same information. -/
structure PkgFields where
  name : String
  is_virtual : Bool
  version : Option String
  licenses : Option String
  dl_dir : Option String
  dependencies : List String
deriving DecidableEq

/-- A package information object: `TargetPkgInfo` (with the three install
flags) or `HostPkgInfo`. -/
inductive PkgInfo where
  | target : PkgFields → Bool → Bool → Bool → PkgInfo
  | host : PkgFields → PkgInfo
deriving DecidableEq

def PkgInfo.fields : PkgInfo → PkgFields
  | .target b _ _ _ => b
  | .host b => b

def PkgInfo.name (p : PkgInfo) : String :=
  p.fields.name

def PkgInfo.version (p : PkgInfo) : Option String :=
  p.fields.version

def PkgInfo.dependencies (p : PkgInfo) : List String :=
  p.fields.dependencies

/-- `PkgInfo.is_installable`: a target package is installable when any install
flag is set; a host package always is. -/
def PkgInfo.is_installable : PkgInfo → Bool
  | .target _ t s i => t || s || i
  | .host _ => true

/-- `PkgInfo.__eq__`: `False` when the two objects have different runtime
classes, otherwise comparison of the names. -/
def pkgInfoPyEq : PkgInfo → PkgInfo → Bool
  | .target b1 _ _ _, .target b2 _ _ _ => b1.name == b2.name
  | .host b1, .host b2 => b1.name == b2.name
  | _, _ => false

/-- `set.add` on the dependency name set: a no-op when the name is already a
member. -/
def PkgFields.addDep (b : PkgFields) (d : String) : PkgFields :=
  if b.dependencies.contains d then b
  else ⟨b.name, b.is_virtual, b.version, b.licenses, b.dl_dir,
        b.dependencies ++ [d]⟩

def PkgInfo.addDep : PkgInfo → String → PkgInfo
  | .target b t s i, d => .target (b.addDep d) t s i
  | .host b, d => .host (b.addDep d)

/-- `_get_br_pkg_info_entry`: reads one field of a raw entry with a runtime
type check.  Absent and required is a `ValueError`; absent and optional
returns the default (`none` models Python `None`); present with the wrong
runtime type is a `TypeError`. -/
def _get_br_pkg_info_entry (br_pkg_info : Entry) (name : String)
    (pytype : PyType) (is_opt : Bool) (dflt : Option PyVal) :
    Except PyErr (Option PyVal) :=
  match List.lookup name br_pkg_info with
  | none =>
    if !is_opt then
      .error (.valueError ("missing `" ++ name ++ "` entry"))
    else
      .ok dflt
  | some entry =>
    if pyTypeOf entry ≠ pytype then
      .error (.typeError ("wrong `" ++ name ++ "` entry type: `" ++
        pyTypeName (pyTypeOf entry) ++ "`"))
    else
      .ok (some entry)

/-- Coercion of a read field to an optional string (the field was
type-checked as `str`, or defaulted to `None`). -/
def pyStrOpt : Option PyVal → Option String
  | some (.str s) => some s
  | _ => none

/-- Coercion of a read field to a boolean (the field was type-checked as
`bool`, or defaulted). -/
def pyBoolOf : Option PyVal → Bool
  | some (.bool b) => b
  | _ => false

/-- Coercion of a read field to a list of names (the field was type-checked
as `list`, or defaulted). -/
def pyListOf : Option PyVal → List String
  | some (.list l) => l
  | _ => []

/-- `str(type_str)` for the unknown-type error message; at that point the
value is always a type-checked string. -/
def pyValFormat : Option PyVal → String
  | some (.str s) => s
  | some (.bool b) => if b then "True" else "False"
  | some (.list _) => "[...]"
  | none => "None"

/-- The normalization `if version == '': version = None`. -/
def normVersion (v : Option PyVal) : Option PyVal :=
  if v = some (PyVal.str "") then none else v

/-- `pkg_info_from_br_pkg_info`: builds one package information object from a
raw entry, reading `virtual`, `version` (empty string normalized to `None`),
`licenses`, `dl_dir` and the required `type`, then the three install flags
for a target package.  The dependency set starts empty. -/
def pkg_info_from_br_pkg_info (br_pkg_info : Entry) (name : String) :
    Except PyErr PkgInfo :=
  match _get_br_pkg_info_entry br_pkg_info "virtual" .bool true
      (some (.bool false)) with
  | .error e => .error e
  | .ok is_virtualV =>
  match _get_br_pkg_info_entry br_pkg_info "version" .str true none with
  | .error e => .error e
  | .ok versionV0 =>
  match _get_br_pkg_info_entry br_pkg_info "licenses" .str true none with
  | .error e => .error e
  | .ok licensesV =>
  match _get_br_pkg_info_entry br_pkg_info "dl_dir" .str true none with
  | .error e => .error e
  | .ok dl_dirV =>
  match _get_br_pkg_info_entry br_pkg_info "type" .str false none with
  | .error e => .error e
  | .ok typeV =>
  if typeV = some (PyVal.str "target") then
    match _get_br_pkg_info_entry br_pkg_info "install_target" .bool true
        (some (.bool false)) with
    | .error e => .error e
    | .ok itV =>
    match _get_br_pkg_info_entry br_pkg_info "install_staging" .bool true
        (some (.bool false)) with
    | .error e => .error e
    | .ok isV =>
    match _get_br_pkg_info_entry br_pkg_info "install_images" .bool true
        (some (.bool false)) with
    | .error e => .error e
    | .ok iiV =>
    .ok (.target
      ⟨name, pyBoolOf is_virtualV, pyStrOpt (normVersion versionV0),
       pyStrOpt licensesV, pyStrOpt dl_dirV, []⟩
      (pyBoolOf itV) (pyBoolOf isV) (pyBoolOf iiV))
  else if typeV = some (PyVal.str "host") then
    .ok (.host
      ⟨name, pyBoolOf is_virtualV, pyStrOpt (normVersion versionV0),
       pyStrOpt licensesV, pyStrOpt dl_dirV, []⟩)
  else
    .error (.valueError ("unknown `type` entry value: `" ++
      pyValFormat typeV ++ "`"))

/-- Re-raise with the package name prepended:
`raise type(exc)('`{name}` package: {exc}')`. -/
def wrapExc (name : String) : PyErr → PyErr
  | .valueError m => .valueError ("`" ++ name ++ "` package: " ++ m)
  | .typeError m => .typeError ("`" ++ name ++ "` package: " ++ m)
  | .keyError m => .keyError ("`" ++ name ++ "` package: " ++ m)
  | .osError m => .osError ("`" ++ name ++ "` package: " ++ m)

/-- First pass of `pkg_infos_from_br_info`: skips skeleton packages by name
prefix, skips entries whose `type` is `rootfs` (the bare `br_pkg_info['type']`
dictionary access raises an unwrapped `KeyError` when the field is absent),
and otherwise builds the record, re-raising any builder failure with the
package name prepended. -/
def build_pkg_infos : Entries → Except PyErr (List (String × PkgInfo))
  | [] => .ok []
  | (name, br_pkg_info) :: rest =>
    if name.startsWith "skeleton" || name.startsWith "host-skeleton" then
      build_pkg_infos rest
    else
      match List.lookup "type" br_pkg_info with
      | none => .error (.keyError "type")
      | some t =>
        if t = PyVal.str "rootfs" then
          build_pkg_infos rest
        else
          match pkg_info_from_br_pkg_info br_pkg_info name with
          | .error exc => .error (wrapExc name exc)
          | .ok p =>
            match build_pkg_infos rest with
            | .error e => .error e
            | .ok out => .ok ((name, p) :: out)

/-- Second pass of `pkg_infos_from_br_info`: for every record, reads the
`dependencies` field of its raw entry (defaulting to the empty list) and adds
every declared name that is a key of the first-pass result to the record's
dependency set; other names are skipped silently.  `keys` is the full set of
first-pass keys. -/
def resolve_dependencies (br_info : Entries) (keys : List String) :
    List (String × PkgInfo) → Except PyErr (List (String × PkgInfo))
  | [] => .ok []
  | (n, p) :: rest =>
    match List.lookup n br_info with
    | none => .error (.keyError n)
    | some br_pkg_info =>
      match _get_br_pkg_info_entry br_pkg_info "dependencies" .list true
          (some (.list [])) with
      | .error e => .error e
      | .ok depsV =>
        match resolve_dependencies br_info keys rest with
        | .error e => .error e
        | .ok out =>
          .ok ((n, (pyListOf depsV).foldl
            (fun q d => if keys.contains d then q.addDep d else q) p) :: out)

/-- `pkg_infos_from_br_info`: the two-pass graph builder. -/
def pkg_infos_from_br_info (br_info : Entries) :
    Except PyErr (List (String × PkgInfo)) :=
  match build_pkg_infos br_info with
  | .error e => .error e
  | .ok pkg_infos =>
    resolve_dependencies br_info (pkg_infos.map Prod.fst) pkg_infos

/-- The declared dependency names that the second pass reads for the record
keyed `n`: a projection of the same field read `resolve_dependencies`
performs, with the empty list on a failed read. -/
def depNamesOf (br_info : Entries) (n : String) : List String :=
  match List.lookup n br_info with
  | none => []
  | some br_pkg_info =>
    match _get_br_pkg_info_entry br_pkg_info "dependencies" .list true
        (some (.list [])) with
    | .error _ => []
    | .ok depsV => pyListOf depsV

/-- The result of probing one path with `os.stat`: the path exists, the path
does not exist, or the probe fails with an `OSError` (permission or I/O
error). -/
inductive StatResult where
  | found
  | missing
  | accessError
deriving DecidableEq

/-- The filesystem as seen by the tracker: a `stat` probe per path, an
`os.path.isdir` check per path, and an `os.listdir` listing per path (which,
unlike the two checks, propagates its `OSError`). -/
structure Fs where
  stat : String → StatResult
  isdir : String → Bool
  listdir : String → Except PyErr (List String)

/-- `os.path.exists`: `True` only when the probe finds the path; both a
missing path and a failed probe yield `False` (CPython catches the
`OSError`). -/
def os_path_exists (fs : Fs) (p : String) : Bool :=
  match fs.stat p with
  | .found => true
  | _ => false

/-- `os.path.join` on the two path components the source joins. -/
def os_path_join (a b : String) : String :=
  a ++ "/" ++ b

/-- `PkgBuild._STAMP_FILE_PREFIX`. -/
def stampFilePre : String :=
  ".stamp_"

/-- A package build tracker: its record and the derived build directory. -/
structure PkgBuild where
  info : PkgInfo
  build_dir : String
deriving DecidableEq

/-- `PkgBuild.__init__`: the build directory is
`<br_build_dir>/<name>` or `<br_build_dir>/<name>-<version>`. -/
def PkgBuild.make (info : PkgInfo) (br_build_dir : String) : PkgBuild :=
  ⟨info,
   os_path_join br_build_dir
     (info.name ++ (match info.version with
       | some v => "-" ++ v
       | none => ""))⟩

/-- `PkgBuild.stamps`: when the build directory exists, the listed files that
carry the stamp prefix, with the prefix stripped (`str.replace` removes every
occurrence, as in the source); a missing directory yields the empty set, and
the listing error propagates. -/
def PkgBuild.stamps (fs : Fs) (pb : PkgBuild) : Except PyErr (List String) :=
  if fs.isdir pb.build_dir then
    match fs.listdir pb.build_dir with
    | .error e => .error e
    | .ok files =>
      .ok (files.foldl
        (fun acc f =>
          if stampFilePre.isPrefixOf f then
            if acc.contains (f.replace stampFilePre "") then acc
            else acc ++ [f.replace stampFilePre ""]
          else acc)
        [])
  else
    .ok []

/-- The path of the stamp file named `name` for this tracker. -/
def PkgBuild.stampPath (pb : PkgBuild) (name : String) : String :=
  os_path_join pb.build_dir (stampFilePre ++ name)

/-- `PkgBuild.has_stamp`: an `os.path.exists` probe of the stamp file. -/
def PkgBuild.has_stamp (fs : Fs) (pb : PkgBuild) (name : String) : Bool :=
  os_path_exists fs (pb.stampPath name)

def PkgBuild.is_downloaded (fs : Fs) (pb : PkgBuild) : Bool :=
  pb.has_stamp fs "downloaded"

def PkgBuild.is_extracted (fs : Fs) (pb : PkgBuild) : Bool :=
  pb.has_stamp fs "extracted"

def PkgBuild.is_patched (fs : Fs) (pb : PkgBuild) : Bool :=
  pb.has_stamp fs "patched"

def PkgBuild.is_configured (fs : Fs) (pb : PkgBuild) : Bool :=
  pb.has_stamp fs "configured"

def PkgBuild.is_built (fs : Fs) (pb : PkgBuild) : Bool :=
  pb.has_stamp fs "built"

/-- `PkgBuild.is_installed`: the early-return chain of the source — for a
target record each set install flag is tried in turn against its marker; for
a host record the `host_installed` marker decides. -/
def PkgBuild.is_installed (fs : Fs) (pb : PkgBuild) : Bool :=
  match pb.info with
  | .target _ t s i =>
    if t && pb.has_stamp fs "target_installed" then true
    else if s && pb.has_stamp fs "staging_installed" then true
    else if i && pb.has_stamp fs "images_installed" then true
    else false
  | .host _ =>
    if pb.has_stamp fs "host_installed" then true
    else false

/-- The build stages. -/
inductive PkgBuildStage where
  | UNKNOWN
  | DOWNLOADED
  | EXTRACTED
  | PATCHED
  | CONFIGURED
  | BUILT
  | INSTALLED
deriving DecidableEq

/-- `PkgBuild.stage`: the `elif` chain of the source, most advanced stage
first, `UNKNOWN` when nothing matches. -/
def PkgBuild.stage (fs : Fs) (pb : PkgBuild) : PkgBuildStage :=
  if pb.is_installed fs then .INSTALLED
  else if pb.is_built fs then .BUILT
  else if pb.is_configured fs then .CONFIGURED
  else if pb.is_patched fs then .PATCHED
  else if pb.is_extracted fs then .EXTRACTED
  else if pb.is_downloaded fs then .DOWNLOADED
  else .UNKNOWN

/-- The stage predicates of the claim, paired with their stages in the
spec's resolution order (most advanced first).  Written from the spec's
words, to be compared with `PkgBuild.stage`. -/
def stagePredList (fs : Fs) (pb : PkgBuild) : List (PkgBuildStage × Bool) :=
  [(.INSTALLED, pb.is_installed fs),
   (.BUILT, pb.is_built fs),
   (.CONFIGURED, pb.is_configured fs),
   (.PATCHED, pb.is_patched fs),
   (.EXTRACTED, pb.is_extracted fs),
   (.DOWNLOADED, pb.is_downloaded fs)]

/-- First stage of the list whose predicate holds; `UNKNOWN` as the fallback.
Written from the spec's words, to be compared with `PkgBuild.stage`. -/
def firstHolding : List (PkgBuildStage × Bool) → PkgBuildStage
  | [] => .UNKNOWN
  | (s, b) :: rest => if b then s else firstHolding rest

/-- The installed predicate as the spec words it: a disjunction of
flag-and-marker conjunctions for a target record, the `host_installed` marker
for a host record.  Written from the spec's words, to be compared with
`PkgBuild.is_installed`. -/
def installedSpec (fs : Fs) (pb : PkgBuild) : Bool :=
  match pb.info with
  | .target _ t s i =>
    (t && pb.has_stamp fs "target_installed") ||
      (s && pb.has_stamp fs "staging_installed") ||
      (i && pb.has_stamp fs "images_installed")
  | .host _ =>
    pb.has_stamp fs "host_installed"

/-- CPython dictionary assignment on an association list: an existing key is
overwritten in place, a new key is appended. -/
def dictSet (d : List (String × PkgBuildStage)) (k : String)
    (v : PkgBuildStage) : List (String × PkgBuildStage) :=
  match d with
  | [] => [(k, v)]
  | (k0, v0) :: rest =>
    if k0 = k then (k, v) :: rest
    else (k0, v0) :: dictSet rest k v

/-- `PkgBuildMonitor`: the tracked builds and the per-name stage cache. -/
structure PkgBuildMonitor where
  pkg_builds : List (String × PkgBuild)
  stages : List (String × PkgBuildStage)
deriving DecidableEq

/-- The `pkg_builds` setter: stores the builds and resets every cached stage
to `UNKNOWN`. -/
def PkgBuildMonitor.make (pkg_builds : List (String × PkgBuild)) :
    PkgBuildMonitor :=
  ⟨pkg_builds, pkg_builds.map (fun b => (b.1, PkgBuildStage.UNKNOWN))⟩

/-- `PkgBuildMonitor.stage`: the cached stage, a dictionary lookup by the
record's name (`none` models the `KeyError` of an untracked record). -/
def PkgBuildMonitor.stage (m : PkgBuildMonitor) (pb : PkgBuild) :
    Option PkgBuildStage :=
  List.lookup pb.info.name m.stages

/-- `PkgBuildMonitor.update`: recomputes every tracked build's stage and
writes it into the cache, one dictionary assignment per build, in order. -/
def PkgBuildMonitor.update (fs : Fs) (m : PkgBuildMonitor) :
    PkgBuildMonitor :=
  ⟨m.pkg_builds,
   m.pkg_builds.foldl
     (fun st b => dictSet st b.2.info.name (b.2.stage fs)) m.stages⟩

/-- `PkgBuildMonitor.built_count`: counts the tracked builds whose cached
stage is `BUILT` or `INSTALLED`. -/
def PkgBuildMonitor.built_count (m : PkgBuildMonitor) : Nat :=
  m.pkg_builds.foldl
    (fun c b =>
      if m.stage b.2 = some PkgBuildStage.BUILT ∨
          m.stage b.2 = some PkgBuildStage.INSTALLED then c + 1
      else c) 0

/-- `PkgBuildMonitor.installed_count`: counts the tracked builds whose cached
stage is `INSTALLED`. -/
def PkgBuildMonitor.installed_count (m : PkgBuildMonitor) : Nat :=
  m.pkg_builds.foldl
    (fun c b =>
      if m.stage b.2 = some PkgBuildStage.INSTALLED then c + 1
      else c) 0

/-- The loop of `PkgBuildMonitor.update` with the per-build stage computation
lifted into `Except`, so that a raise partway through the loop is expressible
at all: each computed stage is written into the cache by dictionary
assignment exactly as in the source.  Instantiated with the source's stage
computation — which is total — it reports no failure (see
`update_never_raises_partway`). -/
def updateLoopExc (stageOf : PkgBuild → Except PyErr PkgBuildStage) :
    List (String × PkgBuild) → List (String × PkgBuildStage) →
    List (String × PkgBuildStage) × Option PyErr
  | [], st => (st, none)
  | b :: rest, st =>
    match stageOf b.2 with
    | .error e => (st, some e)
    | .ok s => updateLoopExc stageOf rest (dictSet st b.2.info.name s)

/-- `needle` is a prefix of `hay` (character lists). -/
def listIsPre : List Char → List Char → Bool
  | [], _ => true
  | _ :: _, [] => false
  | c :: cs, d :: ds => c == d && listIsPre cs ds

/-- `needle` occurs contiguously somewhere in `hay` (character lists). -/
def containsSubAux (needle : List Char) : List Char → Bool
  | [] => listIsPre needle []
  | c :: t => listIsPre needle (c :: t) || containsSubAux needle t

/-- `needle` is a substring of `hay`. -/
def strContainsSub (hay needle : String) : Bool :=
  containsSubAux needle.data hay.data

/-- The report-entry fields the record builder recognizes. -/
def recognizedFields : List String :=
  ["type", "virtual", "version", "licenses", "dl_dir", "install_target",
   "install_staging", "install_images", "dependencies"]

/-! Concrete fixtures used by counterexamples and witnesses. -/

/-- A report holding the spec's malformed entry (an unknown `type` value)
between two well-formed entries. -/
def brMixed : Entries :=
  [("libfoo", [("type", PyVal.str "target")]),
   ("badpkg", [("type", PyVal.str "weird")]),
   ("app", [("type", PyVal.str "target")])]

/-- A malformed entry whose `type` field is missing altogether. -/
def brBadMissing : Entries :=
  [("badpkg", [])]

/-- A two-package report: `app` declares a tracked dependency (`libfoo`) and
an untracked one (`zzz`). -/
def brTwo : Entries :=
  [("libfoo", [("type", PyVal.str "target")]),
   ("app", [("type", PyVal.str "target"),
            ("dependencies", PyVal.list ["libfoo", "zzz"])])]

def recLibfoo : PkgInfo :=
  .target ⟨"libfoo", false, none, none, none, []⟩ false false false

def recApp : PkgInfo :=
  .target ⟨"app", false, none, none, none, ["libfoo"]⟩ false false false

def outTwo : List (String × PkgInfo) :=
  [("libfoo", recLibfoo), ("app", recApp)]

/-- A report whose single entry lists its own name as a dependency. -/
def brSelfDep : Entries :=
  [("a", [("type", PyVal.str "host"), ("dependencies", PyVal.list ["a"])])]

/-- The record the graph builder produces for `brSelfDep`. -/
def recSelfDep : PkgInfo :=
  .host ⟨"a", false, none, none, none, ["a"]⟩

/-- A target record and a host record sharing the name `a`. -/
def tgtA : PkgInfo :=
  .target ⟨"a", false, none, none, none, []⟩ false false false

def hostA : PkgInfo :=
  .host ⟨"a", false, none, none, none, []⟩

/-- A filesystem on which every `stat` probe fails with an `OSError` and
every directory listing fails too. -/
def fsAllErr : Fs :=
  ⟨fun _ => .accessError, fun _ => true,
   fun _ => .error (.osError "Permission denied")⟩

/-- A host package build tracked on `fsAllErr`. -/
def pbP : PkgBuild :=
  PkgBuild.make (.host ⟨"p", false, none, none, none, []⟩) "/build"

/-- A monitor tracking only `pbP`. -/
def monP : PkgBuildMonitor :=
  ⟨[("p", pbP)], [("p", .UNKNOWN)]⟩

/-- A target build whose `built` and `configured` stamps are the only
present files. -/
def pbBC : PkgBuild :=
  PkgBuild.make (.target ⟨"w", false, none, none, none, []⟩ false false false)
    "/build"

def fsBC : Fs :=
  ⟨fun p =>
    if p = pbBC.stampPath "built" then .found
    else if p = pbBC.stampPath "configured" then .found
    else .missing,
   fun _ => false, fun _ => .ok []⟩

/-- A target build with `install_staging` set and `install_target` clear,
whose `staging_installed` stamp is the only present file. -/
def pbStg : PkgBuild :=
  PkgBuild.make (.target ⟨"s", false, none, none, none, []⟩ false true false)
    "/build"

def fsStg : Fs :=
  ⟨fun p =>
    if p = pbStg.stampPath "staging_installed" then .found else .missing,
   fun _ => false, fun _ => .ok []⟩

/-- A two-package monitor on a filesystem where only `q1`'s `built` stamp
exists. -/
def pbQ1 : PkgBuild :=
  PkgBuild.make (.host ⟨"q1", false, none, none, none, []⟩) "/build"

def pbQ2 : PkgBuild :=
  PkgBuild.make (.host ⟨"q2", false, none, none, none, []⟩) "/build"

def monQ : PkgBuildMonitor :=
  PkgBuildMonitor.make [("q1", pbQ1), ("q2", pbQ2)]

def fsQ : Fs :=
  ⟨fun p => if p = pbQ1.stampPath "built" then .found else .missing,
   fun _ => false, fun _ => .ok []⟩

/-- Two raw entries agreeing on every recognized field; the second carries an
extra unrecognized field. -/
def entE1 : Entry :=
  [("type", PyVal.str "host")]

def entE2 : Entry :=
  [("type", PyVal.str "host"), ("color", PyVal.str "blue")]

/-- Whether two records have the same runtime class (`type(other) is
type(self)`). -/
def sameClass : PkgInfo → PkgInfo → Bool
  | .target _ _ _ _, .target _ _ _ _ => true
  | .host _, .host _ => true
  | _, _ => false

/-!  Theorems.  General-purpose lemmas come first, then one theorem per
claim, each with its counterexample and witness where required. -/

theorem listIsPre_self_append (n t : List Char) : listIsPre n (n ++ t) = true := by
  induction n with
  | nil => rfl
  | cons c cs ih => simp [listIsPre, ih]

theorem containsSubAux_of_isPre (n hay : List Char) (h : listIsPre n hay = true) :
    containsSubAux n hay = true := by
  cases hay with
  | nil => exact h
  | cons c t => simp [containsSubAux, h]

theorem containsSubAux_append (pre n suf : List Char) :
    containsSubAux n (pre ++ (n ++ suf)) = true := by
  induction pre with
  | nil => exact containsSubAux_of_isPre n (n ++ suf) (listIsPre_self_append n suf)
  | cons c cs ih => simp [containsSubAux, ih]

/-- The message produced by `wrapExc` contains the package name. -/
theorem strContainsSub_wrapped (name m : String) :
    strContainsSub ("`" ++ name ++ "` package: " ++ m) name = true := by
  unfold strContainsSub
  have hdata : ("`" ++ name ++ "` package: " ++ m).data =
      "`".data ++ (name.data ++ ("` package: ".data ++ m.data)) := by
    simp [List.append_assoc]
  rw [hdata]
  exact containsSubAux_append "`".data name.data ("` package: ".data ++ m.data)

theorem wrapExc_msg (name : String) (e : PyErr) :
    (wrapExc name e).msg = "`" ++ name ++ "` package: " ++ e.msg := by
  cases e <;> rfl

/-- C1: `stage()` returns the first stage, checked from the most advanced to
the least advanced (`INSTALLED`, `BUILT`, `CONFIGURED`, `PATCHED`,
`EXTRACTED`, `DOWNLOADED`), whose predicate holds, and `UNKNOWN` when none
holds; in particular, when the `built` and `configured` markers are both
present and the installed predicate is false, `stage()` returns `BUILT`. -/
theorem stage_resolution_policy (fs : Fs) (pb : PkgBuild) :
    pb.stage fs = firstHolding (stagePredList fs pb) ∧
      (pb.is_built fs = true → pb.is_configured fs = true →
        pb.is_installed fs = false → pb.stage fs = PkgBuildStage.BUILT) := by
  constructor
  · rfl
  · intro hb _ hi
    simp [PkgBuild.stage, hb, hi]

theorem stage_resolution_policy_witness :
    pbBC.is_built fsBC = true ∧ pbBC.is_configured fsBC = true ∧
      pbBC.is_installed fsBC = false ∧ pbBC.stage fsBC = PkgBuildStage.BUILT :=
  ⟨rfl, rfl, rfl, (stage_resolution_policy fsBC pbBC).2 rfl rfl rfl⟩

/-- C2: the installed predicate is the disjunction of flag-and-marker
conjunctions for a target record and the `host_installed` marker check for a
host record; in particular a target record with `install_staging` set,
`install_target` clear and a `staging_installed` marker present resolves to
stage `INSTALLED`. -/
theorem installed_predicate (fs : Fs) (pb : PkgBuild) :
    pb.is_installed fs = installedSpec fs pb ∧
      (∀ (b : PkgFields) (i : Bool), pb.info = PkgInfo.target b false true i →
        pb.has_stamp fs "staging_installed" = true →
        pb.stage fs = PkgBuildStage.INSTALLED) := by
  constructor
  · unfold PkgBuild.is_installed installedSpec
    cases hinfo : pb.info with
    | target b t s i =>
      cases ht : t && pb.has_stamp fs "target_installed" <;>
        cases hs : s && pb.has_stamp fs "staging_installed" <;>
        cases hi : i && pb.has_stamp fs "images_installed" <;>
        simp [ht, hs, hi]
    | host b =>
      cases hh : pb.has_stamp fs "host_installed" <;> simp [hh]
  · intro b i hinfo hst
    have hinst : pb.is_installed fs = true := by
      unfold PkgBuild.is_installed
      rw [hinfo]
      simp [hst]
    simp [PkgBuild.stage, hinst]

theorem installed_predicate_witness :
    pbStg.has_stamp fsStg "staging_installed" = true ∧
      pbStg.stage fsStg = PkgBuildStage.INSTALLED :=
  ⟨rfl,
   (installed_predicate fsStg pbStg).2 ⟨"s", false, none, none, none, []⟩
     false rfl rfl⟩

/-- C7 counterexample: a target record and a host record with the same name
are not equal under `PkgInfo.__eq__`, refuting "equal iff names are equal"
over every pair of records. -/
theorem pkg_eq_counterexample :
    PkgInfo.name tgtA = PkgInfo.name hostA ∧ pkgInfoPyEq tgtA hostA = false :=
  ⟨rfl, rfl⟩

/-- C7 amended: two records are equal under `PkgInfo.__eq__` exactly when
they are of the same class (both target or both host) and their names are
equal; records of different classes are never equal. -/
theorem pkg_eq_iff_sameclass_name (a b : PkgInfo) :
    pkgInfoPyEq a b = (sameClass a b && (a.name == b.name)) := by
  cases a <;> cases b <;>
    simp [pkgInfoPyEq, sameClass, PkgInfo.name, PkgInfo.fields]

/-- C8 counterexample: on a filesystem where every `stat` probe fails with an
`OSError`, a stage query does not propagate the error — every marker probe
reads as absent, the stage silently resolves to `UNKNOWN`, and a refresh
completes normally with that cached value, refuting "propagated unchanged /
refresh fails rather than silently resolving to UNKNOWN". -/
theorem stage_probe_error_counterexample :
    fsAllErr.stat (pbP.stampPath "built") = StatResult.accessError ∧
      pbP.stage fsAllErr = PkgBuildStage.UNKNOWN ∧
      (PkgBuildMonitor.update fsAllErr monP).stages =
        [("p", PkgBuildStage.UNKNOWN)] :=
  ⟨rfl, rfl, rfl⟩

/-- C8 amended: a filesystem error other than "not found" raised while
listing the build directory (the `stamps` property, `os.listdir`) propagates
unchanged, but the stage query probes stamp files with `os.path.exists`,
which swallows errors: whenever no probe reports the file as found — whether
missing or failing — the stage silently resolves to `UNKNOWN`, and a refresh
does not raise. -/
theorem stamps_error_propagation (fs : Fs) (pb : PkgBuild) (e : PyErr) :
    (fs.isdir pb.build_dir = true → fs.listdir pb.build_dir = .error e →
      pb.stamps fs = .error e) ∧
    ((∀ nm, fs.stat (pb.stampPath nm) ≠ StatResult.found) →
      pb.stage fs = PkgBuildStage.UNKNOWN) := by
  constructor
  · intro hd hl
    unfold PkgBuild.stamps
    simp [hd, hl]
  · intro h
    have hstamp : ∀ nm, pb.has_stamp fs nm = false := by
      intro nm
      unfold PkgBuild.has_stamp os_path_exists
      cases hs : fs.stat (pb.stampPath nm) with
      | found => exact absurd hs (h nm)
      | missing => rfl
      | accessError => rfl
    have hinst : pb.is_installed fs = false := by
      unfold PkgBuild.is_installed
      cases pb.info with
      | target b t s i => simp [hstamp]
      | host b => simp [hstamp]
    simp [PkgBuild.stage, PkgBuild.is_built, PkgBuild.is_configured,
      PkgBuild.is_patched, PkgBuild.is_extracted, PkgBuild.is_downloaded,
      hinst, hstamp]

theorem stamps_error_propagation_witness :
    pbP.stamps fsAllErr = .error (.osError "Permission denied") ∧
      pbP.stage fsAllErr = PkgBuildStage.UNKNOWN :=
  ⟨(stamps_error_propagation fsAllErr pbP (.osError "Permission denied")).1
      rfl rfl,
   (stamps_error_propagation fsAllErr pbP (.osError "Permission denied")).2
      (fun nm h => by simp [fsAllErr] at h)⟩

theorem updateLoopExc_ok_eq_foldl (fs : Fs) :
    ∀ (builds : List (String × PkgBuild)) (st : List (String × PkgBuildStage)),
      (updateLoopExc (fun pb => Except.ok (pb.stage fs)) builds st).1 =
        builds.foldl (fun st b => dictSet st b.2.info.name (b.2.stage fs)) st := by
  intro builds
  induction builds with
  | nil => intro st; rfl
  | cons b rest ih => intro st; exact ih (dictSet st b.2.info.name (b.2.stage fs))

theorem updateLoopExc_ok_no_err (fs : Fs) :
    ∀ (builds : List (String × PkgBuild))
      (st : List (String × PkgBuildStage)),
      (updateLoopExc (fun pb => Except.ok (pb.stage fs)) builds st).2 = none := by
  intro builds
  induction builds with
  | nil => intro st; rfl
  | cons b rest ih => intro st; exact ih (dictSet st b.2.info.name (b.2.stage fs))

/-- C4: for every monitor state and every filesystem state, a refresh cannot
raise partway through recomputing stages: the per-build stage computation is
total, because the stamp probes (`os.path.exists`) swallow filesystem
errors.  The `Except`-lifted source loop reports no failure and runs to
completion with the fully rewritten cache of `PkgBuildMonitor.update`, so
the claimed conditional — a raise partway leaves the pre-call cache
observable — holds, its premise never occurring. -/
theorem update_never_raises_partway (fs : Fs) (m : PkgBuildMonitor) :
    (updateLoopExc (fun pb => Except.ok (pb.stage fs)) m.pkg_builds
        m.stages).2 = none ∧
      (updateLoopExc (fun pb => Except.ok (pb.stage fs)) m.pkg_builds
          m.stages).1 = (PkgBuildMonitor.update fs m).stages := by
  constructor
  · exact updateLoopExc_ok_no_err fs m.pkg_builds m.stages
  · rw [updateLoopExc_ok_eq_foldl]
    rfl

/-- C3 counterexample: an entry with no `type` field at all fails during the
exclusion check (`br_pkg_info['type']`), before the wrapping `try` block, so
the raised failure's message does not contain the package name, refuting
"this holds for every kind of per-entry failure, including a missing ...
`type` field". -/
theorem missing_type_unwrapped :
    pkg_infos_from_br_info brBadMissing = .error (.keyError "type") ∧
      strContainsSub (PyErr.keyError "type").msg "badpkg" = false :=
  ⟨rfl, rfl⟩

theorem build_pkg_infos_append :
    ∀ (pre rest : Entries) (out1 : List (String × PkgInfo)),
      build_pkg_infos pre = .ok out1 →
      build_pkg_infos (pre ++ rest) =
        match build_pkg_infos rest with
        | .error e => .error e
        | .ok out2 => .ok (out1 ++ out2) := by
  intro pre
  induction pre with
  | nil =>
    intro rest out1 h
    simp only [build_pkg_infos] at h
    injection h with h
    subst h
    cases hr : build_pkg_infos rest <;> simp [hr]
  | cons hd tl ih =>
    intro rest out1 h
    obtain ⟨nm, ent⟩ := hd
    simp only [build_pkg_infos, List.cons_append] at h ⊢
    by_cases hskip :
        (nm.startsWith "skeleton" || nm.startsWith "host-skeleton") = true
    · rw [if_pos hskip] at h ⊢
      exact ih rest out1 h
    · rw [if_neg hskip] at h ⊢
      cases hlook : List.lookup "type" ent with
      | none =>
        simp only [hlook] at h
        exact absurd h (by simp)
      | some t =>
        simp only [hlook] at h ⊢
        by_cases hrfs : t = PyVal.str "rootfs"
        · rw [if_pos hrfs] at h ⊢
          exact ih rest out1 h
        · rw [if_neg hrfs] at h ⊢
          cases hpi : pkg_info_from_br_pkg_info ent nm with
          | error exc =>
            simp only [hpi] at h
            exact absurd h (by simp)
          | ok p =>
            simp only [hpi] at h ⊢
            cases htl : build_pkg_infos tl with
            | error e2 =>
              simp only [htl] at h
              exact absurd h (by simp)
            | ok out2 =>
              simp only [htl] at h
              injection h with h
              subst h
              simp only [List.append_eq]
              rw [ih rest out2 htl]
              cases hr : build_pkg_infos rest <;> simp [hr]

/-- C3 amended: for every raw report, a failure raised while building the
record of a non-excluded entry (one that is not skeleton-prefixed and whose
present `type` field is not `rootfs`) — with any entries before it that
process cleanly and any entries after it — is re-raised with that entry's
package name prepended to its message, the whole graph construction fails
with that error and no partial graph is returned; in particular the
`badpkg`/`weird` scenario raises a validation failure whose message contains
`badpkg`.  A missing `type` field, however, raises an unwrapped lookup
failure during the exclusion check, so its message does not contain the
package name. -/
theorem entry_failure_wrapped (pre post : Entries) (name : String)
    (e : Entry) (exc : PyErr) (out1 : List (String × PkgInfo)) (t : PyVal)
    (hpre : build_pkg_infos pre = .ok out1)
    (h1 : name.startsWith "skeleton" = false)
    (h2 : name.startsWith "host-skeleton" = false)
    (h3 : List.lookup "type" e = some t)
    (h4 : ¬ t = PyVal.str "rootfs")
    (h5 : pkg_info_from_br_pkg_info e name = .error exc) :
    pkg_infos_from_br_info (pre ++ (name, e) :: post) =
        .error (wrapExc name exc) ∧
      strContainsSub (wrapExc name exc).msg name = true := by
  constructor
  · have hmid : build_pkg_infos ((name, e) :: post) =
        .error (wrapExc name exc) := by
      simp only [build_pkg_infos, h1, h2, h3, h5, Bool.or_self,
        Bool.false_eq_true, if_false, if_neg h4]
    unfold pkg_infos_from_br_info
    rw [build_pkg_infos_append pre ((name, e) :: post) out1 hpre, hmid]
  · rw [wrapExc_msg]
    exact strContainsSub_wrapped name exc.msg

theorem entry_failure_wrapped_witness :
    pkg_infos_from_br_info brMixed =
        .error (.valueError "`badpkg` package: unknown `type` entry value: `weird`") ∧
      strContainsSub "`badpkg` package: unknown `type` entry value: `weird`"
        "badpkg" = true := by
  have h := entry_failure_wrapped
    [("libfoo", [("type", PyVal.str "target")])]
    [("app", [("type", PyVal.str "target")])]
    "badpkg" [("type", PyVal.str "weird")]
    (.valueError "unknown `type` entry value: `weird`")
    [("libfoo", recLibfoo)] (PyVal.str "weird")
    rfl rfl rfl rfl (by decide) rfl
  exact h

theorem get_entry_congr (e1 e2 : Entry) (nm : String) (ty : PyType)
    (o : Bool) (d : Option PyVal)
    (h : List.lookup nm e1 = List.lookup nm e2) :
    _get_br_pkg_info_entry e1 nm ty o d = _get_br_pkg_info_entry e2 nm ty o d := by
  unfold _get_br_pkg_info_entry
  rw [h]

/-- C10: the record builder reads only the recognized fields; two raw entries
that agree on every recognized field — whatever unrecognized fields either
carries — produce identical records (or identical failures). -/
theorem unrecognized_fields_ignored (e1 e2 : Entry) (name : String)
    (h : ∀ k ∈ recognizedFields, List.lookup k e1 = List.lookup k e2) :
    pkg_info_from_br_pkg_info e1 name = pkg_info_from_br_pkg_info e2 name := by
  unfold pkg_info_from_br_pkg_info
  rw [get_entry_congr e1 e2 "virtual" .bool true (some (.bool false))
      (h "virtual" (by simp [recognizedFields])),
    get_entry_congr e1 e2 "version" .str true none
      (h "version" (by simp [recognizedFields])),
    get_entry_congr e1 e2 "licenses" .str true none
      (h "licenses" (by simp [recognizedFields])),
    get_entry_congr e1 e2 "dl_dir" .str true none
      (h "dl_dir" (by simp [recognizedFields])),
    get_entry_congr e1 e2 "type" .str false none
      (h "type" (by simp [recognizedFields])),
    get_entry_congr e1 e2 "install_target" .bool true (some (.bool false))
      (h "install_target" (by simp [recognizedFields])),
    get_entry_congr e1 e2 "install_staging" .bool true (some (.bool false))
      (h "install_staging" (by simp [recognizedFields])),
    get_entry_congr e1 e2 "install_images" .bool true (some (.bool false))
      (h "install_images" (by simp [recognizedFields]))]

theorem unrecognized_fields_ignored_witness :
    pkg_info_from_br_pkg_info entE1 "pkg" = pkg_info_from_br_pkg_info entE2 "pkg" :=
  unrecognized_fields_ignored entE1 entE2 "pkg" (by decide)

theorem pkg_info_ok_shape (e : Entry) (n : String) (p : PkgInfo)
    (h : pkg_info_from_br_pkg_info e n = .ok p) :
    p.name = n ∧ p.dependencies = [] := by
  unfold pkg_info_from_br_pkg_info at h
  repeat' split at h
  all_goals injection h
  all_goals rename_i h
  all_goals subst h
  all_goals exact ⟨rfl, rfl⟩

theorem build_pkg_infos_mem :
    ∀ (br : Entries) (out : List (String × PkgInfo)),
      build_pkg_infos br = .ok out →
      ∀ b ∈ out, b.2.name = b.1 ∧ b.2.dependencies = [] := by
  intro br
  induction br with
  | nil =>
    intro out h b hb
    simp only [build_pkg_infos] at h
    injection h with h
    subst h
    simp at hb
  | cons hd tl ih =>
    intro out h b hb
    obtain ⟨hname, hentry⟩ := hd
    simp only [build_pkg_infos] at h
    by_cases hskip :
        (hname.startsWith "skeleton" || hname.startsWith "host-skeleton") = true
    · rw [if_pos hskip] at h
      exact ih out h b hb
    · rw [if_neg hskip] at h
      cases hlook : List.lookup "type" hentry with
      | none => simp only [hlook] at h; exact absurd h (by simp)
      | some t =>
        simp only [hlook] at h
        by_cases hrfs : t = PyVal.str "rootfs"
        · rw [if_pos hrfs] at h
          exact ih out h b hb
        · rw [if_neg hrfs] at h
          cases hpi : pkg_info_from_br_pkg_info hentry hname with
          | error exc => simp only [hpi] at h; exact absurd h (by simp)
          | ok p =>
            simp only [hpi] at h
            cases hrest : build_pkg_infos tl with
            | error e2 => simp only [hrest] at h; exact absurd h (by simp)
            | ok out2 =>
              simp only [hrest] at h
              injection h with h
              subst h
              rcases List.mem_cons.mp hb with rfl | hb
              · exact pkg_info_ok_shape hentry hname p hpi
              · exact ih out2 hrest b hb

theorem resolve_dependencies_keys (br : Entries) (keys : List String) :
    ∀ (l out : List (String × PkgInfo)),
      resolve_dependencies br keys l = .ok out →
      out.map Prod.fst = l.map Prod.fst := by
  intro l
  induction l with
  | nil =>
    intro out h
    simp only [resolve_dependencies] at h
    injection h with h
    subst h
    rfl
  | cons a rest ih =>
    intro out h
    obtain ⟨n, p⟩ := a
    simp only [resolve_dependencies] at h
    cases hlook : List.lookup n br with
    | none => simp only [hlook] at h; exact absurd h (by simp)
    | some ent =>
      rw [hlook] at h
      cases hget : _get_br_pkg_info_entry ent "dependencies" .list true
          (some (.list [])) with
      | error e2 => simp only [hget] at h; exact absurd h (by simp)
      | ok depsV =>
        simp only [hget] at h
        cases hrest : resolve_dependencies br keys rest with
        | error e2 => simp only [hrest] at h; exact absurd h (by simp)
        | ok out2 =>
          simp only [hrest] at h
          injection h with h
          subst h
          simp [ih out2 hrest]

theorem resolve_dependencies_mem (br : Entries) (keys : List String) :
    ∀ (l out : List (String × PkgInfo)),
      resolve_dependencies br keys l = .ok out →
      ∀ b ∈ out, ∃ a, a ∈ l ∧ a.1 = b.1 ∧
        b.2 = (depNamesOf br b.1).foldl
          (fun q d => if keys.contains d then q.addDep d else q) a.2 := by
  intro l
  induction l with
  | nil =>
    intro out h b hb
    simp only [resolve_dependencies] at h
    injection h with h
    subst h
    simp at hb
  | cons a rest ih =>
    intro out h b hb
    obtain ⟨n, p⟩ := a
    simp only [resolve_dependencies] at h
    cases hlook : List.lookup n br with
    | none => simp only [hlook] at h; exact absurd h (by simp)
    | some ent =>
      rw [hlook] at h
      cases hget : _get_br_pkg_info_entry ent "dependencies" .list true
          (some (.list [])) with
      | error e2 => simp only [hget] at h; exact absurd h (by simp)
      | ok depsV =>
        simp only [hget] at h
        cases hrest : resolve_dependencies br keys rest with
        | error e2 => simp only [hrest] at h; exact absurd h (by simp)
        | ok out2 =>
          simp only [hrest] at h
          injection h with h
          subst h
          rcases List.mem_cons.mp hb with rfl | hb
          · exact ⟨(n, p), List.mem_cons_self _ _, rfl,
              by simp [depNamesOf, hlook, hget]⟩
          · obtain ⟨a, ha, h1, h2⟩ := ih out2 hrest b hb
            exact ⟨a, List.mem_cons_of_mem _ ha, h1, h2⟩

theorem PkgInfo.addDep_name (q : PkgInfo) (d : String) :
    (q.addDep d).name = q.name := by
  cases q <;>
    simp only [PkgInfo.addDep, PkgInfo.name, PkgInfo.fields,
      PkgFields.addDep] <;>
    split <;> rfl

theorem mem_addDep_deps (q : PkgInfo) (d d0 : String) :
    d0 ∈ (q.addDep d).dependencies ↔ d0 ∈ q.dependencies ∨ d0 = d := by
  cases q <;>
    simp only [PkgInfo.addDep, PkgInfo.dependencies, PkgInfo.fields,
      PkgFields.addDep] <;>
    split
  case _ hc =>
    have hd : d ∈ _ := List.mem_of_elem_eq_true hc
    constructor
    · exact Or.inl
    · rintro (h | rfl)
      · exact h
      · exact hd
  case _ => simp [List.mem_append]
  case _ hc =>
    have hd : d ∈ _ := List.mem_of_elem_eq_true hc
    constructor
    · exact Or.inl
    · rintro (h | rfl)
      · exact h
      · exact hd
  case _ => simp [List.mem_append]

theorem foldl_addDep_name (keys : List String) :
    ∀ (ds : List String) (q : PkgInfo),
      (ds.foldl (fun q d => if keys.contains d then q.addDep d else q)
        q).name = q.name := by
  intro ds
  induction ds with
  | nil => intro q; rfl
  | cons d ds ih =>
    intro q
    simp only [List.foldl_cons]
    rw [ih]
    split
    · exact PkgInfo.addDep_name q d
    · rfl

theorem mem_foldl_addDep (keys : List String) :
    ∀ (ds : List String) (q : PkgInfo) (d0 : String),
      d0 ∈ (ds.foldl (fun q d => if keys.contains d then q.addDep d else q)
          q).dependencies ↔
        d0 ∈ q.dependencies ∨ (d0 ∈ ds ∧ keys.contains d0 = true) := by
  intro ds
  induction ds with
  | nil => intro q d0; simp
  | cons d ds ih =>
    intro q d0
    simp only [List.foldl_cons]
    rw [ih]
    by_cases hc : keys.contains d = true
    · rw [if_pos hc, mem_addDep_deps]
      constructor
      · rintro ((hq | rfl) | hds)
        · exact Or.inl hq
        · exact Or.inr ⟨List.mem_cons_self _ _, hc⟩
        · exact Or.inr ⟨List.mem_cons_of_mem _ hds.1, hds.2⟩
      · rintro (hq | ⟨hmem, hc0⟩)
        · exact Or.inl (Or.inl hq)
        · rcases List.mem_cons.mp hmem with rfl | hds
          · exact Or.inl (Or.inr rfl)
          · exact Or.inr ⟨hds, hc0⟩
    · rw [if_neg hc]
      constructor
      · rintro (hq | hds)
        · exact Or.inl hq
        · exact Or.inr ⟨List.mem_cons_of_mem _ hds.1, hds.2⟩
      · rintro (hq | ⟨hmem, hc0⟩)
        · exact Or.inl hq
        · rcases List.mem_cons.mp hmem with rfl | hds
          · exact absurd hc0 hc
          · exact Or.inr ⟨hds, hc0⟩

/-- C6: for every accepted raw report, every output record's dependency set
is a subset of the output mapping's keys; every declared dependency name
present in the output is linked, and names absent from the output are
dropped silently. -/
theorem dependency_resolution (br : Entries) (out : List (String × PkgInfo))
    (h : pkg_infos_from_br_info br = .ok out) :
    ∀ b ∈ out,
      (∀ d ∈ b.2.dependencies, d ∈ out.map Prod.fst) ∧
      (∀ d ∈ depNamesOf br b.1, d ∈ out.map Prod.fst → d ∈ b.2.dependencies) := by
  unfold pkg_infos_from_br_info at h
  cases hbuild : build_pkg_infos br with
  | error e => rw [hbuild] at h; exact absurd h (by simp)
  | ok infos1 =>
    rw [hbuild] at h
    have hkeys : out.map Prod.fst = infos1.map Prod.fst :=
      resolve_dependencies_keys br (infos1.map Prod.fst) infos1 out h
    intro b hb
    obtain ⟨a, ha, hfst, hform⟩ :=
      resolve_dependencies_mem br (infos1.map Prod.fst) infos1 out h b hb
    obtain ⟨hnm, hdeps⟩ := build_pkg_infos_mem br infos1 hbuild a ha
    constructor
    · intro d hd
      rw [hform, mem_foldl_addDep] at hd
      rcases hd with hd | ⟨_, hc⟩
      · rw [hdeps] at hd
        simp at hd
      · rw [hkeys]
        exact List.mem_of_elem_eq_true hc
    · intro d hd hout
      rw [hform, mem_foldl_addDep]
      refine Or.inr ⟨hd, ?_⟩
      rw [hkeys] at hout
      exact List.elem_eq_true_of_mem hout

theorem dependency_resolution_witness :
    "libfoo" ∈ recApp.dependencies :=
  (dependency_resolution brTwo outTwo rfl ("app", recApp) (by decide)).2
    "libfoo" (by decide) (by decide)

/-- C5 counterexample: a report whose entry lists its own name among its
declared dependencies yields a record whose dependency set contains the
record itself, refuting "no self-loops ... including when the report entry
lists the package's own name among its declared dependencies". -/
theorem self_loop_counterexample :
    pkg_infos_from_br_info brSelfDep = .ok [("a", recSelfDep)] ∧
      recSelfDep.name ∈ recSelfDep.dependencies :=
  ⟨rfl, by decide⟩

/-- C5 amended: every output record's name equals its key, and its dependency
set does not contain the record itself provided the entry does not list its
own name among its declared dependencies; when it does, the builder links the
self-edge. -/
theorem no_self_loop_unless_declared (br : Entries)
    (out : List (String × PkgInfo)) (h : pkg_infos_from_br_info br = .ok out) :
    ∀ b ∈ out, b.2.name = b.1 ∧
      (b.1 ∉ depNamesOf br b.1 → b.2.name ∉ b.2.dependencies) := by
  unfold pkg_infos_from_br_info at h
  cases hbuild : build_pkg_infos br with
  | error e => rw [hbuild] at h; exact absurd h (by simp)
  | ok infos1 =>
    rw [hbuild] at h
    intro b hb
    obtain ⟨a, ha, hfst, hform⟩ :=
      resolve_dependencies_mem br (infos1.map Prod.fst) infos1 out h b hb
    obtain ⟨hnm, hdeps⟩ := build_pkg_infos_mem br infos1 hbuild a ha
    have hbname : b.2.name = b.1 := by
      rw [hform, foldl_addDep_name, hnm, hfst]
    refine ⟨hbname, ?_⟩
    intro hnot hmem
    rw [hbname, hform, mem_foldl_addDep] at hmem
    rcases hmem with hmem | ⟨hin, _⟩
    · rw [hdeps] at hmem
      simp at hmem
    · exact hnot hin

theorem no_self_loop_unless_declared_witness :
    recApp.name ∉ recApp.dependencies :=
  (no_self_loop_unless_declared brTwo outTwo rfl ("app", recApp)
    (by decide)).2 (by decide)

theorem foldl_if_count {α : Type} (p : α → Prop) [DecidablePred p] :
    ∀ (l : List α) (c : Nat),
      List.foldl (fun n x => if p x then n + 1 else n) c l =
        c + List.countP (fun x => decide (p x)) l := by
  intro l
  induction l with
  | nil => intro c; simp
  | cons x xs ih =>
    intro c
    simp only [List.foldl_cons, List.countP_cons]
    by_cases hx : p x
    · rw [if_pos hx, ih]
      simp [hx]
      omega
    · rw [if_neg hx, ih]
      simp [hx]

theorem countP_ext {α : Type} (p q : α → Bool) :
    ∀ (l : List α), (∀ x ∈ l, p x = q x) →
      List.countP p l = List.countP q l := by
  intro l
  induction l with
  | nil => intro _; rfl
  | cons x xs ih =>
    intro h
    simp only [List.countP_cons]
    rw [ih (fun y hy => h y (List.mem_cons_of_mem _ hy)),
      h x (List.mem_cons_self _ _)]

theorem lookup_dictSet_self :
    ∀ (d : List (String × PkgBuildStage)) (k : String) (v : PkgBuildStage),
      List.lookup k (dictSet d k v) = some v := by
  intro d
  induction d with
  | nil => intro k v; simp [dictSet, List.lookup]
  | cons kv rest ih =>
    intro k v
    obtain ⟨k0, v0⟩ := kv
    by_cases h : k0 = k
    · subst h
      simp [dictSet, List.lookup]
    · have hbeq : (k == k0) = false :=
        beq_eq_false_iff_ne.mpr (fun he => h he.symm)
      simp only [dictSet, if_neg h, List.lookup, hbeq]
      exact ih k v

theorem lookup_dictSet_ne :
    ∀ (d : List (String × PkgBuildStage)) (k k0 : String) (v : PkgBuildStage),
      k ≠ k0 → List.lookup k (dictSet d k0 v) = List.lookup k d := by
  intro d
  induction d with
  | nil =>
    intro k k0 v h
    have hbeq : (k == k0) = false := beq_eq_false_iff_ne.mpr h
    simp [dictSet, List.lookup, hbeq]
  | cons kv rest ih =>
    intro k k0 v h
    obtain ⟨k1, v1⟩ := kv
    by_cases h1 : k1 = k0
    · subst h1
      have hbeq : (k == k1) = false := beq_eq_false_iff_ne.mpr h
      simp [dictSet, List.lookup, hbeq]
    · simp only [dictSet, if_neg h1, List.lookup]
      rw [ih k k0 v h]

theorem lookup_foldl_dictSet_notin (fs : Fs) :
    ∀ (builds : List (String × PkgBuild))
      (st : List (String × PkgBuildStage)) (k : String),
      (∀ x ∈ builds, x.2.info.name ≠ k) →
      List.lookup k (builds.foldl
        (fun st b => dictSet st b.2.info.name (b.2.stage fs)) st) =
      List.lookup k st := by
  intro builds
  induction builds with
  | nil => intro st k _; rfl
  | cons b rest ih =>
    intro st k h
    simp only [List.foldl_cons]
    rw [ih _ k (fun x hx => h x (List.mem_cons_of_mem _ hx))]
    exact lookup_dictSet_ne st k b.2.info.name (b.2.stage fs)
      (fun he => h b (List.mem_cons_self _ _) he.symm)

theorem update_stage_lookup (fs : Fs) :
    ∀ (builds : List (String × PkgBuild))
      (st : List (String × PkgBuildStage)),
      (builds.map (fun b => b.2.info.name)).Nodup →
      ∀ b ∈ builds,
        List.lookup b.2.info.name (builds.foldl
          (fun st x => dictSet st x.2.info.name (x.2.stage fs)) st) =
        some (b.2.stage fs) := by
  intro builds
  induction builds with
  | nil => intro st _ b hb; simp at hb
  | cons x rest ih =>
    intro st hnd b hb
    simp only [List.map_cons, List.nodup_cons] at hnd
    obtain ⟨hx, hnd'⟩ := hnd
    simp only [List.foldl_cons]
    rcases List.mem_cons.mp hb with rfl | hb
    · rw [lookup_foldl_dictSet_notin fs rest _ _
        (fun y hy he => hx (by rw [← he]; exact List.mem_map_of_mem (fun b => b.2.info.name) hy))]
      exact lookup_dictSet_self st _ _
    · exact ih _ hnd' b hb

/-- C9: `built_count` counts the tracked builds whose cached stage is `BUILT`
or `INSTALLED` and `installed_count` those whose cached stage is exactly
`INSTALLED`; immediately after a refresh both equal the naive from-scratch
recomputation over the freshly computed stages. -/
theorem counts_from_cache (m : PkgBuildMonitor) (fs : Fs)
    (hnd : (m.pkg_builds.map Prod.fst).Nodup)
    (hk : ∀ b ∈ m.pkg_builds, b.2.info.name = b.1) :
    m.built_count = m.pkg_builds.countP
        (fun b => decide (m.stage b.2 = some PkgBuildStage.BUILT ∨
          m.stage b.2 = some PkgBuildStage.INSTALLED)) ∧
    m.installed_count = m.pkg_builds.countP
        (fun b => decide (m.stage b.2 = some PkgBuildStage.INSTALLED)) ∧
    (PkgBuildMonitor.update fs m).built_count = m.pkg_builds.countP
        (fun b => decide (b.2.stage fs = PkgBuildStage.BUILT ∨
          b.2.stage fs = PkgBuildStage.INSTALLED)) ∧
    (PkgBuildMonitor.update fs m).installed_count = m.pkg_builds.countP
        (fun b => decide (b.2.stage fs = PkgBuildStage.INSTALLED)) := by
  have hbc : ∀ (w : PkgBuildMonitor), w.built_count = w.pkg_builds.countP
      (fun b => decide (w.stage b.2 = some PkgBuildStage.BUILT ∨
        w.stage b.2 = some PkgBuildStage.INSTALLED)) := by
    intro w
    unfold PkgBuildMonitor.built_count
    rw [foldl_if_count]
    exact Nat.zero_add _
  have hic : ∀ (w : PkgBuildMonitor), w.installed_count = w.pkg_builds.countP
      (fun b => decide (w.stage b.2 = some PkgBuildStage.INSTALLED)) := by
    intro w
    unfold PkgBuildMonitor.installed_count
    rw [foldl_if_count]
    exact Nat.zero_add _
  have hnames : m.pkg_builds.map (fun b => b.2.info.name) =
      m.pkg_builds.map Prod.fst :=
    List.map_eq_map_iff.mpr hk
  have hnd' : (m.pkg_builds.map (fun b => b.2.info.name)).Nodup := by
    rw [hnames]; exact hnd
  have hfresh : ∀ b ∈ m.pkg_builds,
      (PkgBuildMonitor.update fs m).stage b.2 = some (b.2.stage fs) :=
    fun b hb => update_stage_lookup fs m.pkg_builds m.stages hnd' b hb
  refine ⟨hbc m, hic m, ?_, ?_⟩
  · rw [hbc (PkgBuildMonitor.update fs m)]
    exact countP_ext _ _ m.pkg_builds
      (fun b hb => by rw [hfresh b hb]; simp)
  · rw [hic (PkgBuildMonitor.update fs m)]
    exact countP_ext _ _ m.pkg_builds
      (fun b hb => by rw [hfresh b hb]; simp)

theorem counts_from_cache_witness :
    (PkgBuildMonitor.update fsQ monQ).built_count = 1 ∧
      (PkgBuildMonitor.update fsQ monQ).installed_count = 0 := by
  have h := counts_from_cache monQ fsQ (by decide) (by decide)
  exact ⟨h.2.2.1.trans (by decide), h.2.2.2.trans (by decide)⟩

end Yobr
